import Mathlib

/-!
Verification development for the pulse orchestration service
(gaulatti/la-isla-bonita). The definitions below are a shallow embedding of
the TypeScript sources: `PulsesService` (src/assessments/pulses/pulses.service.ts),
the `PulsesController` create/get endpoints, and — where the repository code is
not available under src/ — components modelled from the specification
(marked `Modelled from the spec:` in their doc comments).
-/

namespace LaIslaBonita

/-- Pulse status, from the spec's data model: status ∈
Pending, InProgress, Completed, PartialFailure, TimedOut. -/
inductive Status where
  | Pending
  | InProgress
  | Completed
  | PartialFailure
  | TimedOut
deriving DecidableEq, Repr

/-- A status is terminal when it is Completed, PartialFailure or TimedOut. -/
def Status.isTerminal : Status → Bool
  | .Completed => true
  | .PartialFailure => true
  | .TimedOut => true
  | _ => false

/-- A row of the pulses table, with the fields `createPulse` writes
(src/assessments/pulses/pulses.service.ts, lines 193-198) plus the status. -/
structure Pulse where
  slug : String
  urlId : Nat
  playlistId : Nat
  status : Status
deriving DecidableEq, Repr

/-- A row of the urls table: `id` plus the stored fully-qualified URL,
as consumed by `urlByFQDN`. -/
structure UrlRecord where
  id : Nat
  url : String
deriving DecidableEq, Repr

/-- The `PulsesDto` payload of a create/trigger request: a URL and a playlist id. -/
structure PulsesDto where
  url : String
  playlistId : Nat
deriving DecidableEq, Repr

/-- A membership row as carried on the user record returned by
`usersService.findUser`. The membership model file is not under src/; the
`active` flag is modelled from the spec's wording "first active membership"
(§4.1, §6) so that the spec's selection rule can be stated at all. The
TypeScript code never reads this flag. -/
structure Membership where
  id : Nat
  active : Bool
deriving DecidableEq, Repr

/-- The user record returned by `usersService.findUser(id)` with its
memberships included (users.service.ts is not under src/; the record is taken
as given, matching the `user.memberships` access in `triggerPulse`). -/
structure User where
  id : Nat
  memberships : List Membership
deriving DecidableEq, Repr

/-- The payload `triggerPulse` serialises for the ad-hoc trigger lambda
(src/assessments/pulses/pulses.service.ts, lines 226-233). -/
structure DispatchPayload where
  url : String
  membership_id : Nat
  isBeta : Bool
deriving DecidableEq, Repr

/-- Outcome of the opaque worker-invocation capability (`lambdaClient.send`):
the send either succeeds or throws. -/
inductive LambdaOutcome where
  | success
  | failure
deriving DecidableEq, Repr

/-- A JavaScript value as returned from the service methods to the HTTP layer:
`triggerPulse` returns `undefined` (its body has no return statement); a
slug-carrying result would be a string. -/
inductive JsValue where
  | undefined
  | str (s : String)
deriving DecidableEq, Repr

/-- Observable result of one `triggerPulse` call: the lambda invocations that
were attempted (the payload handed to `lambdaClient.send`), whether the catch
block logged an invocation error, and the call's outcome — normal return of a
value, or a thrown exception (`Except.error`). -/
structure TriggerResult where
  invocations : List DispatchPayload
  errorLogged : Bool
  outcome : Except String JsValue
deriving Repr

/-- `PulsesService.triggerPulse` (src/assessments/pulses/pulses.service.ts,
lines 216-241). `user` is the record `usersService.findUser` resolved.
`user.memberships.find(Boolean)` returns the first truthy element; membership
objects are always truthy, so it is the head of the array, and on an empty
array it is `undefined`, making the subsequent `.id` access throw a TypeError
while `params` is built — before the try block, so the catch around
`lambdaClient.send` never sees it. Inside the try, a failing send is caught
and logged (`logger.error`) and the method returns normally with no value. -/
def triggerPulse (url : String) (user : User) (isBeta : Bool)
    (invokeOutcome : LambdaOutcome) : TriggerResult :=
  match user.memberships.head? with
  | none =>
      { invocations := []
        errorLogged := false
        outcome := .error "TypeError: Cannot read properties of undefined" }
  | some m =>
      let payload : DispatchPayload :=
        { url := url, membership_id := m.id, isBeta := isBeta }
      match invokeOutcome with
      | .success =>
          { invocations := [payload], errorLogged := false,
            outcome := .ok .undefined }
      | .failure =>
          { invocations := [payload], errorLogged := true,
            outcome := .ok .undefined }

/-- `PulsesController.createPulse` (POST /pulses): delegates to
`pulsesService.triggerPulse(dto, user)` and returns its result to the HTTP
caller. -/
def controllerCreatePulse (dto : PulsesDto) (user : User) (isBeta : Bool)
    (invokeOutcome : LambdaOutcome) : TriggerResult :=
  triggerPulse dto.url user isBeta invokeOutcome

/-- The spec's membership selection rule, stated for comparison with the
code: the requester's first active membership. -/
def firstActiveMembership (ms : List Membership) : Option Membership :=
  ms.find? (fun m => m.active)

/-- Whether a service result hands the caller a pulse identity (a slug
string) rather than `undefined` or a thrown error. -/
def returnsIdentity (r : TriggerResult) : Bool :=
  match r.outcome with
  | .ok (.str _) => true
  | _ => false

/-- String prefix test, computed on the underlying character lists (same
observable behaviour as `String.startsWith`). -/
def strStartsWith (s pre : String) : Bool := pre.data.isPrefixOf s.data

/-- Equality of `Except` values is decidable when it is for both component
types. -/
instance {ε α : Type} [DecidableEq ε] [DecidableEq α] :
    DecidableEq (Except ε α) := fun a b =>
  match a, b with
  | .ok x, .ok y =>
      if h : x = y then isTrue (by rw [h])
      else isFalse (fun he => h (Except.ok.injEq x y ▸ he))
  | .error x, .error y =>
      if h : x = y then isTrue (by rw [h])
      else isFalse (fun he => h (Except.error.injEq x y ▸ he))
  | .ok _, .error _ => isFalse (fun he => Except.noConfusion he)
  | .error _, .ok _ => isFalse (fun he => Except.noConfusion he)

/-- Modelled from the spec: `prependWWW` (src/utils/pulses, not under src/)
canonicalizes an input URL by scheme and www normalization — strip an
`http://` or `https://` scheme prefix, ensure a `www.` host prefix, and emit
the `https://` form ("canonicalized (scheme/www normalization) before
storage"). -/
def prependWWW (url : String) : String :=
  let noScheme :=
    if strStartsWith url "https://" then url.drop 8
    else if strStartsWith url "http://" then url.drop 7
    else url
  let withWWW :=
    if strStartsWith noScheme "www." then noScheme else "www." ++ noScheme
  "https://" ++ withWWW

/-- Modelled from the spec: `urlByFQDN` (UrlsService, not under src/)
resolves the stored Url record whose fully-qualified URL equals the given
one ("Url — a fully-qualified URL under a Target; ... referenced by
Pulse"). -/
def urlByFQDN (urls : List UrlRecord) (fqdn : String) : Option UrlRecord :=
  urls.find? (fun r => r.url == fqdn)

/-- Modelled from the spec: the store's insert for the pulses table enforces
the globally unique slug ("globally unique immutable slug"; the pulse model
file is not under src/), so inserting a pulse whose slug equals an existing
row's slug fails on the unique constraint and changes nothing; otherwise the
row is appended. -/
def dbCreate (store : List Pulse) (p : Pulse) : Except String (List Pulse) :=
  if store.any (fun q => q.slug == p.slug) then .error "UniqueConstraintError"
  else .ok (store ++ [p])

/-- `PulsesService.createPulse` (src/assessments/pulses/pulses.service.ts,
lines 182-208): sanitize the URL with `prependWWW`, resolve the Url record
via `urlByFQDN` (a null record makes the `urlRecord.id` access throw), call
`nanoid()` exactly once — modelled as `gen 0`, where `gen n` is the slug the
n-th `nanoid()` call would produce — and insert the pulse. The status field
is not set by this code; the model default makes it Pending (modelled from
the spec: "status = Pending"; the pulse model file is not under src/).
On success the created pulse and the new store are returned. -/
def createPulse (gen : Nat → String) (dto : PulsesDto) (urls : List UrlRecord)
    (store : List Pulse) : Except String (Pulse × List Pulse) :=
  let sanitizedUrl := prependWWW dto.url
  match urlByFQDN urls sanitizedUrl with
  | none => .error "TypeError: Cannot read properties of null"
  | some urlRecord =>
      let slug := gen 0
      let pulse : Pulse :=
        { slug := slug, urlId := urlRecord.id, playlistId := dto.playlistId,
          status := .Pending }
      match dbCreate store pulse with
      | .error e => .error e
      | .ok store2 => .ok (pulse, store2)

/-- `PulsesService.getPulse` (src/assessments/pulses/pulses.service.ts,
lines 164-169): `findOne` over the pulses table filtered by slug; Sequelize's
`findOne` resolves with the matching row, or with null when no row matches —
it does not throw. -/
def getPulse (store : List Pulse) (slug : String) : Option Pulse :=
  store.find? (fun p => p.slug == slug)

/-- Modelled from the spec: the Pulse Store's conditional transition
primitive `transition(pulseId, fromStatuses, toStatus)` — the update applies
only if the current status is in `fromStatuses` and is a no-op otherwise
(§4.2). Here expressed on the status value of the row being updated. -/
def condTransition (fromStatuses : List Status) (toStatus : Status)
    (s : Status) : Status :=
  if s ∈ fromStatuses then toStatus else s

/-- Modelled from the spec: the status-changing operations the components
issue through `condTransition` — the Aggregator's Pending → InProgress on
first accepted heartbeat and InProgress → Completed on full count (§4.3),
an InProgress → PartialFailure outcome (data-model status set, §3), and the
Reaper's Pending, InProgress → TimedOut (§4.6). -/
inductive TransitionOp where
  | start
  | complete
  | fail
  | timeout
deriving DecidableEq, Repr

/-- The status update each operation performs, via the conditional
transition primitive. -/
def applyOp : TransitionOp → Status → Status
  | .start, s => condTransition [.Pending] .InProgress s
  | .complete, s => condTransition [.InProgress] .Completed s
  | .fail, s => condTransition [.InProgress] .PartialFailure s
  | .timeout, s => condTransition [.Pending, .InProgress] .TimedOut s

/-- A pulse's status after a sequence of transition operations. -/
def runOps (ops : List TransitionOp) (s : Status) : Status :=
  ops.foldl (fun st op => applyOp op st) s

/-- Position of a status along the chain Pending → InProgress →
terminal states, for stating monotonicity. -/
def Status.rank : Status → Nat
  | .Pending => 0
  | .InProgress => 1
  | _ => 2

/-- The edges of the spec's status chain Pending → InProgress →
Completed, PartialFailure, TimedOut, read as an order: a legal step moves
strictly forward along the chain (the Reaper may time out a pulse straight
from Pending, skipping InProgress, which is still forward motion) and never
leaves a terminal status. -/
def legalStep : Status → Status → Bool
  | .Pending, .InProgress => true
  | .Pending, .TimedOut => true
  | .InProgress, .Completed => true
  | .InProgress, .PartialFailure => true
  | .InProgress, .TimedOut => true
  | _, _ => false

/-- Modelled from the spec: the aggregator's view of a pulse — its id, its
expected slot count (fixed at creation, §3), and its status. -/
structure AggPulse where
  id : Nat
  expected : Nat
  status : Status
deriving DecidableEq, Repr

/-- Modelled from the spec: aggregator state — the pulse rows and the
accepted heartbeats, each keyed by (pulseId, slotId), in arrival order. -/
structure AggState where
  pulses : List AggPulse
  heartbeats : List (Nat × Nat)
deriving DecidableEq, Repr

/-- The result type of heartbeat ingestion:
Accepted, Duplicate, Rejected(PulseNotFound | PulseTerminal) (§4.3). -/
inductive IngestResult where
  | Accepted
  | Duplicate
  | RejectedPulseNotFound
  | RejectedPulseTerminal
deriving DecidableEq, Repr

/-- Modelled from the spec: `ingest(pulseId, slotId, payload)` (§4.3) —
look up the pulse (absent → Rejected PulseNotFound); if terminal, reject
(PulseTerminal); if a heartbeat with this (pulseId, slotId) key was already
accepted, the unique-keyed insert fails → Duplicate, nothing changes;
otherwise insert the heartbeat, transition Pending → InProgress via the
conditional primitive, recompute the accepted count for the pulse and, when
it reaches the expected slot count, transition InProgress → Completed. -/
def ingest (st : AggState) (pulseId slotId : Nat) : IngestResult × AggState :=
  match st.pulses.find? (fun p => p.id == pulseId) with
  | none => (.RejectedPulseNotFound, st)
  | some p =>
      if p.status.isTerminal then (.RejectedPulseTerminal, st)
      else if (pulseId, slotId) ∈ st.heartbeats then (.Duplicate, st)
      else
        let hbs := st.heartbeats ++ [(pulseId, slotId)]
        let count := (hbs.filter (fun k => k.1 == pulseId)).length
        let s1 := condTransition [.Pending] .InProgress p.status
        let s2 :=
          if count == p.expected then condTransition [.InProgress] .Completed s1
          else s1
        (.Accepted,
          { pulses :=
              st.pulses.map
                (fun q => if q.id == pulseId then { q with status := s2 } else q)
            heartbeats := hbs })

/-- Aggregator state after a delivery sequence of heartbeat keys. -/
def runIngest (st : AggState) (ds : List (Nat × Nat)) : AggState :=
  ds.foldl (fun s d => (ingest s d.1 d.2).2) st

/-- How many accepted heartbeats carry a given (pulseId, slotId) key. -/
def countKey (l : List (Nat × Nat)) (key : Nat × Nat) : Nat :=
  (l.filter (fun k => k == key)).length

/-- A sample user with a single membership, for concrete evaluations. -/
def userSingle : User :=
  { id := 1, memberships := [{ id := 5, active := true }] }

/-- A sample user whose first membership is inactive while the second is
active. -/
def userMixed : User :=
  { id := 1,
    memberships := [{ id := 1, active := false }, { id := 2, active := true }] }

/-- A sample user with no memberships. -/
def userNone : User := { id := 9, memberships := [] }

/-- A sample request payload. -/
def dtoSample : PulsesDto := { url := "example.com", playlistId := 2 }

/-- A sample urls table holding the canonical form of `dtoSample.url`. -/
def urlsSample : List UrlRecord := [{ id := 7, url := "https://www.example.com" }]

/-- An existing pulse row whose slug is the string "X". -/
def pulseX : Pulse :=
  { slug := "X", urlId := 7, playlistId := 1, status := .Pending }

/-- A pulses table already holding `pulseX`. -/
def storeX : List Pulse := [pulseX]

/-- A slug generator whose first `nanoid()` result collides with `pulseX`
and whose second result is fresh. -/
def slugGenCollide : Nat → String := fun n => if n = 0 then "X" else "Y"

/-- A slug generator that always yields the string "X". -/
def slugGenX : Nat → String := fun _ => "X"

/-- A slug generator that always yields the string "fresh". -/
def slugGenFresh : Nat → String := fun _ => "fresh"

/-- The row `createPulse` builds for `dtoSample` against `urlsSample` when
the generated slug is the string "fresh". -/
def pulseFresh : Pulse :=
  { slug := "fresh", urlId := 7, playlistId := 2, status := .Pending }

/-- A sample aggregator state: one pending pulse expecting two slots, one
heartbeat already accepted for slot 1. -/
def aggSample : AggState :=
  { pulses := [{ id := 1, expected := 2, status := .Pending }],
    heartbeats := [(1, 1)] }

/-- Inversion of a successful `createPulse` run: the URL resolved (to some
record r), the created row carries exactly the first generated slug, r's id,
the request's playlistId and the Pending default, the new store is the old
one with the row appended, and no stored slug equalled the generated one. -/
theorem createPulse_ok_inv (gen : Nat → String) (dto : PulsesDto)
    (urls : List UrlRecord) (store : List Pulse) (p : Pulse)
    (store' : List Pulse)
    (h : createPulse gen dto urls store = .ok (p, store')) :
    ∃ r, urlByFQDN urls (prependWWW dto.url) = some r ∧
      p = { slug := gen 0, urlId := r.id, playlistId := dto.playlistId,
            status := .Pending } ∧
      store' = store ++ [p] ∧
      store.any (fun q => q.slug == gen 0) = false := by
  unfold createPulse at h
  cases hu : urlByFQDN urls (prependWWW dto.url) with
  | none =>
      simp only [hu] at h
      exact Except.noConfusion h
  | some r =>
      simp only [hu, dbCreate] at h
      split at h
      · exact Except.noConfusion h
      · rename_i hc
        simp only [Except.ok.injEq, Prod.mk.injEq] at h
        obtain ⟨hp, hs⟩ := h
        split at hc
        · exact Except.noConfusion hc
        · rename_i hany
          injection hc with hc2
          refine ⟨r, rfl, hp.symm, ?_, Bool.eq_false_iff.mpr hany⟩
          rw [← hs, ← hc2, ← hp]

/-- C1: if the worker invocation (the lambda dispatch) fails, `triggerPulse`
logs the failure (the catch block's `logger.error`) and returns normally —
the invocation failure is not propagated as an exception to the caller and
does not fail the trigger operation. -/
theorem triggerPulse_absorbs_invocation_failure (url : String) (user : User)
    (isBeta : Bool) (h : user.memberships ≠ []) :
    (triggerPulse url user isBeta .failure).outcome = .ok .undefined ∧
    (triggerPulse url user isBeta .failure).errorLogged = true := by
  cases hm : user.memberships with
  | nil => exact absurd hm h
  | cons m rest => simp [triggerPulse, hm]

/-- Witness for C1 at a concrete request. -/
theorem triggerPulse_absorbs_invocation_failure_witness :
    (triggerPulse "https://www.example.com" userSingle false .failure).outcome
      = .ok .undefined ∧
    (triggerPulse "https://www.example.com" userSingle false .failure).errorLogged
      = true :=
  triggerPulse_absorbs_invocation_failure "https://www.example.com" userSingle
    false (by simp [userSingle])

/-- C10: for a user whose memberships collection is empty,
`user.memberships.find(Boolean)` is `undefined` and the `.id` access throws
while the payload is being built — before the try block — so no invocation is
attempted, the dispatch-failure catch logs nothing, and the error propagates
to the caller. -/
theorem triggerPulse_empty_memberships_throws (url : String) (user : User)
    (isBeta : Bool) (oc : LambdaOutcome) (h : user.memberships = []) :
    (triggerPulse url user isBeta oc).outcome =
      .error "TypeError: Cannot read properties of undefined" ∧
    (triggerPulse url user isBeta oc).invocations = [] ∧
    (triggerPulse url user isBeta oc).errorLogged = false := by
  simp [triggerPulse, h]

/-- Witness for C10 at a concrete request. -/
theorem triggerPulse_empty_memberships_throws_witness :
    (triggerPulse "https://www.example.com" userNone true .success).outcome =
      .error "TypeError: Cannot read properties of undefined" ∧
    (triggerPulse "https://www.example.com" userNone true .success).invocations
      = [] ∧
    (triggerPulse "https://www.example.com" userNone true .success).errorLogged
      = false :=
  triggerPulse_empty_memberships_throws "https://www.example.com" userNone true
    .success rfl

/-- C4 counterexample: for a requester whose first membership is inactive and
whose second is active, the dispatched membership id is the first
membership's (id 1), not the first active membership's (id 2). -/
theorem triggerPulse_first_membership_counterexample :
    (triggerPulse "https://www.example.com" userMixed false .success).invocations.map
      DispatchPayload.membership_id = [1] ∧
    (firstActiveMembership userMixed.memberships).map Membership.id = some 2 := by
  constructor <;> rfl

/-- C4 amended: the membership identifier placed in the dispatch payload is
that of the requester's first membership in array order
(`memberships.find(Boolean)` = head), regardless of any active flag. -/
theorem triggerPulse_uses_head_membership (url : String) (user : User)
    (isBeta : Bool) (oc : LambdaOutcome) (m : Membership)
    (rest : List Membership) (h : user.memberships = m :: rest) :
    (triggerPulse url user isBeta oc).invocations.map
      DispatchPayload.membership_id = [m.id] := by
  cases oc <;> simp [triggerPulse, h]

/-- Witness for the amended C4 at a concrete request. -/
theorem triggerPulse_uses_head_membership_witness :
    (triggerPulse "https://www.example.com" userMixed false .success).invocations.map
      DispatchPayload.membership_id = [({ id := 1, active := false } : Membership).id] :=
  triggerPulse_uses_head_membership "https://www.example.com" userMixed false
    .success { id := 1, active := false } [{ id := 2, active := true }] rfl

/-- C3 counterexample: a concrete externally-surfaced create-pulse request
that completes normally yet hands the caller `undefined` — no pulse identity
(slug) is returned. -/
theorem controllerCreatePulse_no_identity_counterexample :
    returnsIdentity (controllerCreatePulse dtoSample userSingle false .success)
      = false ∧
    (controllerCreatePulse dtoSample userSingle false .success).outcome =
      .ok .undefined := by
  constructor <;> rfl

/-- C3 amended: the externally-surfaced create-pulse endpoint delegates to
`triggerPulse` and never returns the created pulse's identity: every call
either throws or resolves with `undefined`. -/
theorem controllerCreatePulse_returns_no_identity (dto : PulsesDto)
    (user : User) (isBeta : Bool) (oc : LambdaOutcome) :
    returnsIdentity (controllerCreatePulse dto user isBeta oc) = false := by
  cases hm : user.memberships <;> cases oc <;>
    simp [controllerCreatePulse, triggerPulse, hm, returnsIdentity]

/-- C5: `getPulse` resolves with null exactly when no pulse has the given
slug (it does not throw), and any pulse it returns is a stored pulse whose
slug equals the argument — never some other pulse. -/
theorem getPulse_spec (store : List Pulse) (s : String) :
    (getPulse store s = none ↔ ∀ p ∈ store, p.slug ≠ s) ∧
    (∀ p, getPulse store s = some p → p ∈ store ∧ p.slug = s) := by
  constructor
  · rw [getPulse, List.find?_eq_none]
    constructor
    · intro h p hp
      have := h p hp
      simpa using this
    · intro h p hp
      simpa using h p hp
  · intro p hp
    rw [getPulse] at hp
    refine ⟨List.mem_of_find?_eq_some hp, ?_⟩
    have := List.find?_some hp
    simpa using this

/-- Witness for C5: a present slug is found (and is the stored row), an
absent slug resolves to null. -/
theorem getPulse_spec_witness :
    (pulseX ∈ storeX ∧ pulseX.slug = "X") ∧ getPulse storeX "missing" = none :=
  ⟨(getPulse_spec storeX "X").2 pulseX rfl,
   (getPulse_spec storeX "missing").1.mpr (by
      intro p hp
      simp [storeX, pulseX] at hp
      simp [hp, pulseX])⟩

/-- C6: every pulse row persisted by `createPulse` has status Pending at
creation (the model's column default — the service code does not set the
field), carries the request's playlistId and the resolved Url record's id,
and is persisted atomically: on success the new store is exactly the old
store with the one fully-built row appended, and on error no store is
produced, leaving the caller's store untouched. -/
theorem createPulse_creates_pending_row (gen : Nat → String) (dto : PulsesDto)
    (urls : List UrlRecord) (store : List Pulse) (p : Pulse)
    (store' : List Pulse)
    (h : createPulse gen dto urls store = .ok (p, store')) :
    p.status = .Pending ∧ p.playlistId = dto.playlistId ∧
    (urlByFQDN urls (prependWWW dto.url)).map UrlRecord.id = some p.urlId ∧
    store' = store ++ [p] := by
  obtain ⟨r, hr, hp, hs, _⟩ := createPulse_ok_inv gen dto urls store p store' h
  subst hp
  exact ⟨rfl, rfl, by rw [hr]; rfl, hs⟩

/-- Witness for C6 at a concrete creation against an empty pulses table. -/
theorem createPulse_creates_pending_row_witness :
    pulseFresh.status = Status.Pending ∧
    pulseFresh.playlistId = dtoSample.playlistId ∧
    (urlByFQDN urlsSample (prependWWW dtoSample.url)).map UrlRecord.id =
      some pulseFresh.urlId ∧
    [pulseFresh] = [] ++ [pulseFresh] :=
  createPulse_creates_pending_row slugGenFresh dtoSample urlsSample []
    pulseFresh [pulseFresh] (by decide)

/-- C7: `createPulse` canonicalizes the input URL with `prependWWW` before
resolving the stored Url record, so two input URLs with the same canonical
form resolve to the same record and both created pulses reference that
record's id. -/
theorem createPulse_canonical_resolution (gen gen2 : Nat → String)
    (u1 u2 : String) (pl1 pl2 : Nat) (urls : List UrlRecord)
    (store : List Pulse) (p1 p2 : Pulse) (s1 s2 : List Pulse)
    (hcanon : prependWWW u1 = prependWWW u2)
    (h1 : createPulse gen { url := u1, playlistId := pl1 } urls store
      = .ok (p1, s1))
    (h2 : createPulse gen2 { url := u2, playlistId := pl2 } urls store
      = .ok (p2, s2)) :
    p1.urlId = p2.urlId ∧
    (urlByFQDN urls (prependWWW u1)).map UrlRecord.id = some p1.urlId := by
  obtain ⟨r1, hr1, hp1, _, _⟩ := createPulse_ok_inv _ _ _ _ _ _ h1
  obtain ⟨r2, hr2, hp2, _, _⟩ := createPulse_ok_inv _ _ _ _ _ _ h2
  have e1 : urlByFQDN urls (prependWWW u1) = some r1 := hr1
  have e2 : urlByFQDN urls (prependWWW u2) = some r2 := hr2
  have e1' : urlByFQDN urls (prependWWW u2) = some r1 := hcanon ▸ e1
  have hrr : r1 = r2 := Option.some_inj.mp (e1'.symm.trans e2)
  subst hp1
  subst hp2
  refine ⟨?_, ?_⟩
  · show r1.id = r2.id
    rw [hrr]
  · rw [e1]
    rfl

/-- Witness for C7: the inputs "example.com" and "http://example.com"
differ only in the canonicalized prefix and resolve to the same record. -/
theorem createPulse_canonical_resolution_witness :
    pulseFresh.urlId =
      ({ slug := "fresh", urlId := 7, playlistId := 3,
         status := Status.Pending } : Pulse).urlId ∧
    (urlByFQDN urlsSample (prependWWW "example.com")).map UrlRecord.id =
      some pulseFresh.urlId :=
  createPulse_canonical_resolution slugGenFresh slugGenFresh "example.com"
    "http://example.com" 2 3 urlsSample [] pulseFresh
    { slug := "fresh", urlId := 7, playlistId := 3, status := Status.Pending }
    [pulseFresh]
    [{ slug := "fresh", urlId := 7, playlistId := 3, status := Status.Pending }]
    (by decide) (by decide) (by decide)

/-- C2 counterexample: with an existing pulse of slug "X", a first generated
slug "X" (collision) and a second generated slug "Y" that is fresh and
available, `createPulse` does not regenerate: it fails on the uniqueness
constraint with the single generated slug. -/
theorem createPulse_no_retry_counterexample :
    createPulse slugGenCollide dtoSample urlsSample storeX =
      .error "UniqueConstraintError" ∧
    slugGenCollide 1 = "Y" ∧
    storeX.all (fun q => !(q.slug == "Y")) = true := by
  refine ⟨by decide, rfl, by decide⟩

/-- C2 amended: `createPulse` calls the slug generator exactly once and has
no collision check or retry loop — its result depends only on the first
generated slug, and when that slug collides with a stored pulse's slug the
call never succeeds (it fails on the store's uniqueness constraint instead
of regenerating or persisting a duplicate). -/
theorem createPulse_single_slug_no_regen (gen gen2 : Nat → String)
    (dto : PulsesDto) (urls : List UrlRecord) (store : List Pulse)
    (hg : gen 0 = gen2 0) :
    createPulse gen dto urls store = createPulse gen2 dto urls store ∧
    ((∃ q ∈ store, q.slug = gen 0) →
      ∀ p store', createPulse gen dto urls store ≠ .ok (p, store')) := by
  constructor
  · simp only [createPulse, hg]
  · rintro ⟨q, hq, hslug⟩ p store' hok
    obtain ⟨r, _, _, _, hany⟩ := createPulse_ok_inv gen dto urls store p store' hok
    have hq2 : store.any (fun x => x.slug == gen 0) = true := by
      rw [List.any_eq_true]
      exact ⟨q, hq, by simpa using hslug⟩
    rw [hany] at hq2
    exact Bool.noConfusion hq2

/-- Witness for the amended C2: on the collision input the run equals the
run of a generator that only ever produces "X", and it does not succeed. -/
theorem createPulse_single_slug_no_regen_witness :
    createPulse slugGenCollide dtoSample urlsSample storeX =
      createPulse slugGenX dtoSample urlsSample storeX ∧
    createPulse slugGenCollide dtoSample urlsSample storeX ≠
      .ok (pulseX, storeX ++ [pulseX]) :=
  ⟨(createPulse_single_slug_no_regen slugGenCollide slugGenX dtoSample
      urlsSample storeX rfl).1,
   (createPulse_single_slug_no_regen slugGenCollide slugGenX dtoSample
      urlsSample storeX rfl).2 ⟨pulseX, by simp [storeX], rfl⟩ pulseX
      (storeX ++ [pulseX])⟩

/-- A terminal status is a fixed point of every transition operation: the
conditional primitive's from-set never contains a terminal status. -/
theorem applyOp_terminal_fix (op : TransitionOp) (s : Status)
    (h : s.isTerminal = true) : applyOp op s = s := by
  revert h
  cases op <;> cases s <;> decide

/-- Every transition operation is monotone in the chain position. -/
theorem rank_le_applyOp (op : TransitionOp) (s : Status) :
    s.rank ≤ (applyOp op s).rank := by
  cases op <;> cases s <;> decide

/-- Every transition operation either leaves the status unchanged or makes a
strictly forward legal step along the chain. -/
theorem applyOp_legal (op : TransitionOp) (s : Status) :
    applyOp op s = s ∨
    (s.rank < (applyOp op s).rank ∧ legalStep s (applyOp op s) = true) := by
  cases op <;> cases s <;> decide

/-- Unfolding one step of `runOps`. -/
theorem runOps_cons (op : TransitionOp) (ops : List TransitionOp)
    (s : Status) : runOps (op :: ops) s = runOps ops (applyOp op s) := rfl

/-- No sequence of transition operations moves a terminal status. -/
theorem runOps_terminal_fix (ops : List TransitionOp) :
    ∀ s : Status, s.isTerminal = true → runOps ops s = s := by
  induction ops with
  | nil => intro s _; rfl
  | cons op ops ih =>
      intro s h
      rw [runOps_cons, applyOp_terminal_fix op s h]
      exact ih s h

/-- No sequence of transition operations moves a status backwards along the
chain. -/
theorem rank_le_runOps (ops : List TransitionOp) :
    ∀ s : Status, s.rank ≤ (runOps ops s).rank := by
  induction ops with
  | nil => intro s; exact Nat.le_refl _
  | cons op ops ih =>
      intro s
      rw [runOps_cons]
      exact Nat.le_trans (rank_le_applyOp op s) (ih _)

/-- C8: over every sequence of the components' transition operations, a
pulse's status only moves forward along Pending → InProgress →
Completed, PartialFailure, TimedOut — each individual change is a legal
forward step of the chain (the Reaper may take Pending → TimedOut directly,
which is forward motion skipping InProgress), the chain position never
decreases — and once the status is terminal no operation ever changes it
again. -/
theorem pulse_status_monotonic (ops : List TransitionOp) (s : Status) :
    (s.isTerminal = true → runOps ops s = s) ∧
    s.rank ≤ (runOps ops s).rank ∧
    (∀ op t, applyOp op t = t ∨
      (Status.rank t < Status.rank (applyOp op t) ∧
        legalStep t (applyOp op t) = true)) :=
  ⟨runOps_terminal_fix ops s, rank_le_runOps ops s,
   fun op t => applyOp_legal op t⟩

/-- Witness for C8: a completed pulse stays Completed through further
operations. -/
theorem pulse_status_monotonic_witness :
    runOps [TransitionOp.start, TransitionOp.timeout] Status.Completed =
      Status.Completed :=
  (pulse_status_monotonic [TransitionOp.start, TransitionOp.timeout]
    Status.Completed).1 rfl

/-- One ingestion either leaves the accepted heartbeats unchanged or appends
a key that was not yet present. -/
theorem ingest_heartbeats_cases (st : AggState) (a b : Nat) :
    (ingest st a b).2.heartbeats = st.heartbeats ∨
    ((a, b) ∉ st.heartbeats ∧
      (ingest st a b).2.heartbeats = st.heartbeats ++ [(a, b)]) := by
  unfold ingest
  cases hf : st.pulses.find? (fun p => p.id == a) with
  | none => exact Or.inl rfl
  | some p =>
      simp only [hf]
      by_cases ht : p.status.isTerminal = true
      · rw [if_pos ht]
        exact Or.inl rfl
      · rw [if_neg ht]
        by_cases hm : (a, b) ∈ st.heartbeats
        · rw [if_pos hm]
          exact Or.inl rfl
        · rw [if_neg hm]
          exact Or.inr ⟨hm, rfl⟩

/-- Ingestion preserves the at-most-one-heartbeat-per-key invariant. -/
theorem ingest_nodup (st : AggState) (a b : Nat)
    (h : st.heartbeats.Nodup) : (ingest st a b).2.heartbeats.Nodup := by
  rcases ingest_heartbeats_cases st a b with heq | ⟨hnm, heq⟩
  · rw [heq]; exact h
  · rw [heq, List.nodup_append]
    refine ⟨h, List.nodup_singleton _, fun x hx hx' => ?_⟩
    simp only [List.mem_singleton] at hx'
    subst hx'
    exact hnm hx

/-- Unfolding one step of `runIngest`. -/
theorem runIngest_cons (st : AggState) (d : Nat × Nat)
    (ds : List (Nat × Nat)) :
    runIngest st (d :: ds) = runIngest (ingest st d.1 d.2).2 ds := rfl

/-- Every delivery sequence preserves the at-most-one-heartbeat-per-key
invariant. -/
theorem runIngest_nodup (ds : List (Nat × Nat)) :
    ∀ st : AggState, st.heartbeats.Nodup →
      (runIngest st ds).heartbeats.Nodup := by
  induction ds with
  | nil => intro st h; exact h
  | cons d ds ih =>
      intro st h
      rw [runIngest_cons]
      exact ih _ (ingest_nodup st d.1 d.2 h)

/-- In a duplicate-free heartbeat list, each key is counted at most once. -/
theorem countKey_le_one_of_nodup (l : List (Nat × Nat)) (key : Nat × Nat)
    (h : l.Nodup) : countKey l key ≤ 1 := by
  induction l with
  | nil => exact Nat.zero_le _
  | cons x l ih =>
      rw [List.nodup_cons] at h
      obtain ⟨hx, hl⟩ := h
      by_cases hk : x = key
      · subst hk
        have hzero : countKey l x = 0 := by
          rw [countKey, List.length_eq_zero, List.filter_eq_nil_iff]
          intro k hkl hb
          exact hx (eq_of_beq hb ▸ hkl)
        have hstep : countKey (x :: l) x = countKey l x + 1 := by
          simp [countKey, List.filter_cons]
        rw [hstep, hzero]
      · have hstep : countKey (x :: l) key = countKey l key := by
          simp [countKey, List.filter_cons, hk]
        rw [hstep]
        exact ih hl

/-- Re-delivering an already-accepted key never changes the aggregator state
and is never accepted again, whatever the pulse lookup finds. -/
theorem ingest_mem_noop (st : AggState) (a b : Nat)
    (hm : (a, b) ∈ st.heartbeats) :
    (ingest st a b).2 = st ∧ (ingest st a b).1 ≠ .Accepted := by
  unfold ingest
  cases hf : st.pulses.find? (fun p => p.id == a) with
  | none => simp [hf]
  | some p =>
      by_cases ht : p.status.isTerminal = true
      · simp [hf, ht]
      · simp [hf, ht, hm]

/-- Re-delivering an already-accepted key to a live pulse reports
Duplicate and changes nothing. -/
theorem ingest_duplicate (st : AggState) (a b : Nat) (p : AggPulse)
    (hf : st.pulses.find? (fun q => q.id == a) = some p)
    (ht : p.status.isTerminal = false) (hm : (a, b) ∈ st.heartbeats) :
    ingest st a b = (.Duplicate, st) := by
  unfold ingest
  simp only [hf]
  rw [if_neg (by rw [ht]; exact Bool.false_ne_true), if_pos hm]

/-- C9: starting from any aggregator state satisfying the per-key
uniqueness invariant, every delivery sequence keeps it — each
(pulseId, slotId) key is accepted and counted at most once; a delivery whose
key was already accepted is reported as Duplicate when the pulse is live,
and in every case leaves the state unchanged and is not accepted. -/
theorem heartbeat_accepted_at_most_once (st : AggState)
    (ds : List (Nat × Nat)) (h : st.heartbeats.Nodup) :
    ((runIngest st ds).heartbeats.Nodup ∧
      ∀ key : Nat × Nat, countKey (runIngest st ds).heartbeats key ≤ 1) ∧
    (∀ a b p, (a, b) ∈ st.heartbeats →
      st.pulses.find? (fun q => q.id == a) = some p →
      p.status.isTerminal = false →
      ingest st a b = (.Duplicate, st)) ∧
    (∀ a b, (a, b) ∈ st.heartbeats →
      (ingest st a b).2 = st ∧ (ingest st a b).1 ≠ .Accepted) :=
  ⟨⟨runIngest_nodup ds st h,
    fun key => countKey_le_one_of_nodup _ key (runIngest_nodup ds st h)⟩,
   fun a b p hm hf ht => ingest_duplicate st a b p hf ht hm,
   fun a b hm => ingest_mem_noop st a b hm⟩

/-- Witness for C9: with one heartbeat accepted for (1, 1), delivering
(1, 1) again and then (1, 2) counts (1, 1) once, and the immediate
re-delivery of (1, 1) reports Duplicate without changing the state. -/
theorem heartbeat_accepted_at_most_once_witness :
    countKey (runIngest aggSample [(1, 1), (1, 2)]).heartbeats (1, 1) ≤ 1 ∧
    ingest aggSample 1 1 = (IngestResult.Duplicate, aggSample) :=
  ⟨(heartbeat_accepted_at_most_once aggSample [(1, 1), (1, 2)]
      (by decide)).1.2 (1, 1),
   (heartbeat_accepted_at_most_once aggSample [(1, 1), (1, 2)]
      (by decide)).2.1 1 1 { id := 1, expected := 2, status := .Pending }
      (by decide) (by decide) rfl⟩

end LaIslaBonita
